import Mathlib

/-!
Shallow embedding of the news-ingestion repository (src/src/rss_parser.py,
src/src/news_api.py, src/src/main.py, src/src/database.py) used to check the
natural-language specification against the code.

Python dictionary / attribute values that matter here are either the Python
`None` object or a string; they are modelled by `PyVal`.  A field that may be
structurally absent from a record is modelled as `Option PyVal` (with
`Option.none` meaning the key/attribute is absent).  Python exceptions raised
by an operation are modelled with `Except Unit`.
-/

/-- A Python value held in a record field: either the `None` object or a
string. -/
inductive PyVal where
  | none
  | str (s : String)
deriving DecidableEq

/-- Python truthiness of a `PyVal`: `None` and the empty string are falsy. -/
def pyTruthy : PyVal → Bool
  | PyVal.none => false
  | PyVal.str s => !s.isEmpty

/-- Python `x or y` on record values: the first operand if truthy, else the
second. -/
def pyOr (x y : PyVal) : PyVal :=
  if pyTruthy x then x else y

/-- Python `dict.get(key, default)` / `getattr(obj, name, default)`:
the stored value when the key is present, else the default. -/
def pyGetD (f : Option PyVal) (d : PyVal) : PyVal :=
  f.getD d

/-- The whitespace characters recognised by Python's `str.strip` / `str.split`
(restricted to the ASCII range, which is all this repository feeds them). -/
def isPySpace (c : Char) : Bool :=
  c = ' ' || c = '\t' || c = '\n' || c = '\r' || c = '\x0b' || c = '\x0c'

/-- Python `str.strip()` on a character list. -/
def stripChars (cs : List Char) : List Char :=
  ((cs.dropWhile isPySpace).reverse.dropWhile isPySpace).reverse

/-- Python `str.strip()`. -/
def pyStripStr (s : String) : String :=
  String.mk (stripChars s.data)

/-- Python `str.lower()` restricted to ASCII (all that occurs here), defined
on the character list so that it evaluates by kernel reduction. -/
def pyLowerStr (s : String) : String :=
  String.mk (s.data.map Char.toLower)

deriving instance DecidableEq for Except

/-- Python `value.strip()` on a record value: raises `AttributeError` when the
value is `None`. -/
def pyStrip : PyVal → Except Unit String
  | PyVal.none => Except.error ()
  | PyVal.str s => Except.ok (pyStripStr s)

/-- Python `value.lower()` on a record value: raises `AttributeError` when the
value is `None` (lower-casing restricted to ASCII, which is all that occurs
here). -/
def pyLower : PyVal → Except Unit String
  | PyVal.none => Except.error ()
  | PyVal.str s => Except.ok (pyLowerStr s)

/-- Whether `sub` is a prefix of `l` (character lists). -/
def isPrefixOfCl : List Char → List Char → Bool
  | [], _ => true
  | _ :: _, [] => false
  | a :: as, b :: bs => a = b && isPrefixOfCl as bs

/-- Whether `sub` occurs as a contiguous substring of `l`
(Python `sub in s`). -/
def containsSub (sub : List Char) : List Char → Bool
  | [] => sub.isEmpty
  | c :: rest => isPrefixOfCl sub (c :: rest) || containsSub sub rest

/-- Python `sub in s` on strings. -/
def pyIn (sub s : String) : Bool :=
  containsSub sub.data s.data

/-- A parsed calendar instant as produced by Python `datetime`:
`utcOffsetMinutes = Option.none` models a naive (timezone-less) datetime,
`some z` an aware one with a fixed UTC offset of `z` minutes. -/
structure PyDatetime where
  year : Nat
  month : Nat
  day : Nat
  hour : Nat
  minute : Nat
  second : Nat
  utcOffsetMinutes : Option Int
deriving DecidableEq

/-- Leap-year test (Gregorian). -/
def isLeapYear (y : Nat) : Bool :=
  (y % 4 = 0 && y % 100 ≠ 0) || y % 400 = 0

/-- Number of days in a month, used by the `datetime` constructor check. -/
def daysInMonth (y m : Nat) : Nat :=
  if m = 2 then (if isLeapYear y then 29 else 28)
  else if m = 4 || m = 6 || m = 9 || m = 11 then 30
  else 31

/-!
Model of `datetime.strptime` restricted to the seven format strings listed in
`RSSParser._parse_date_string` (src/src/rss_parser.py lines 153-161).  Each
format string is translated token by token; matching follows CPython's
`_strptime` regexes: numeric fields accept one or two digits within the
documented ranges (two-digit readings preferred), names and literal text match
case-insensitively, `%z` accepts `±HHMM`, `±HH:MM` or a literal `Z`, and the
whole input must be consumed.  After a match the `datetime` constructor
validates the calendar fields (day within the month, seconds below 60),
raising `ValueError` — i.e. yielding no result — otherwise.
-/

/-- One directive or literal of a `strptime` format string. -/
inductive FmtTok where
  | lit (s : String)
  | wday
  | day
  | monName
  | monNum
  | year4
  | hour
  | minute
  | second
  | tz
deriving DecidableEq

/-- Case-insensitive literal match, returning the remaining input. -/
def matchLitCI : List Char → List Char → Option (List Char)
  | [], cs => some cs
  | _ :: _, [] => Option.none
  | a :: as, c :: cs =>
    if a.toLower = c.toLower then matchLitCI as cs else Option.none

/-- Numeric value of a decimal digit character. -/
def digitVal (c : Char) : Nat := c.toNat - 48

/-- Match one or two digits whose value lies in `[lo, hi]`, preferring the
two-digit reading (mirrors the alternation order of the CPython `_strptime`
regexes). -/
def pick2or1 (lo hi : Nat) : List Char → Option (Nat × List Char)
  | d1 :: d2 :: rest =>
    if d1.isDigit && d2.isDigit then
      let v := digitVal d1 * 10 + digitVal d2
      if lo ≤ v && v ≤ hi then some (v, rest)
      else if lo ≤ digitVal d1 && digitVal d1 ≤ min hi 9 then some (digitVal d1, d2 :: rest)
      else Option.none
    else if d1.isDigit && lo ≤ digitVal d1 && digitVal d1 ≤ min hi 9 then
      some (digitVal d1, d2 :: rest)
    else Option.none
  | [d1] =>
    if d1.isDigit && lo ≤ digitVal d1 && digitVal d1 ≤ min hi 9 then
      some (digitVal d1, [])
    else Option.none
  | [] => Option.none

/-- Match exactly four digits (the `%Y` directive). -/
def matchYear4 : List Char → Option (Nat × List Char)
  | a :: b :: c :: d :: rest =>
    if a.isDigit && b.isDigit && c.isDigit && d.isDigit then
      some (((digitVal a * 10 + digitVal b) * 10 + digitVal c) * 10 + digitVal d, rest)
    else Option.none
  | _ => Option.none

/-- Abbreviated weekday names accepted by `%a` (matched case-insensitively). -/
def wdayNames : List String :=
  ["mon", "tue", "wed", "thu", "fri", "sat", "sun"]

/-- Abbreviated month names accepted by `%b`, in month order. -/
def monNames : List String :=
  ["jan", "feb", "mar", "apr", "may", "jun",
   "jul", "aug", "sep", "oct", "nov", "dec"]

/-- Match one name of `names` case-insensitively, returning its 1-based index
and the remaining input. -/
def matchName (names : List String) (cs : List Char) : Option (Nat × List Char) :=
  let rec go : List String → Nat → Option (Nat × List Char)
    | [], _ => Option.none
    | n :: ns, i =>
      match matchLitCI n.data cs with
      | some rest => some (i, rest)
      | Option.none => go ns (i + 1)
  go names 1

/-- Match the `%z` directive: `Z` (exactly, case-sensitively), or a sign
followed by two hour digits, an optional colon and two minute digits
(minutes below 60).  Returns the offset in minutes. -/
def matchTz : List Char → Option (Int × List Char)
  | 'Z' :: rest => some (0, rest)
  | s :: h1 :: h2 :: rest =>
    if (s = '+' || s = '-') && h1.isDigit && h2.isDigit then
      let hrs : Int := Int.ofNat (digitVal h1 * 10 + digitVal h2)
      let sign : Int := if s = '-' then -1 else 1
      match rest with
      | ':' :: m1 :: m2 :: rest' =>
        if m1.isDigit && digitVal m1 ≤ 5 && m2.isDigit then
          some (sign * (hrs * 60 + Int.ofNat (digitVal m1 * 10 + digitVal m2)), rest')
        else Option.none
      | m1 :: m2 :: rest' =>
        if m1.isDigit && digitVal m1 ≤ 5 && m2.isDigit then
          some (sign * (hrs * 60 + Int.ofNat (digitVal m1 * 10 + digitVal m2)), rest')
        else Option.none
      | _ => Option.none
    else Option.none
  | _ => Option.none

/-- Process one format token against the input, updating the partial result. -/
def matchTok (t : FmtTok) (st : PyDatetime) (cs : List Char) :
    Option (PyDatetime × List Char) :=
  match t with
  | FmtTok.lit s => (matchLitCI s.data cs).map (fun rest => (st, rest))
  | FmtTok.wday => (matchName wdayNames cs).map (fun p => (st, p.2))
  | FmtTok.day => (pick2or1 1 31 cs).map (fun p => ({ st with day := p.1 }, p.2))
  | FmtTok.monName => (matchName monNames cs).map (fun p => ({ st with month := p.1 }, p.2))
  | FmtTok.monNum => (pick2or1 1 12 cs).map (fun p => ({ st with month := p.1 }, p.2))
  | FmtTok.year4 => (matchYear4 cs).map (fun p => ({ st with year := p.1 }, p.2))
  | FmtTok.hour => (pick2or1 0 23 cs).map (fun p => ({ st with hour := p.1 }, p.2))
  | FmtTok.minute => (pick2or1 0 59 cs).map (fun p => ({ st with minute := p.1 }, p.2))
  | FmtTok.second => (pick2or1 0 61 cs).map (fun p => ({ st with second := p.1 }, p.2))
  | FmtTok.tz => (matchTz cs).map (fun p => ({ st with utcOffsetMinutes := some p.1 }, p.2))

/-- Validation performed by the `datetime` constructor after a `strptime`
match: the day must fit the month and seconds must be below 60 (the `%S`
regex admits leap seconds 60 and 61 which the constructor then rejects). -/
def validateDT (st : PyDatetime) : Option PyDatetime :=
  if st.day ≤ daysInMonth st.year st.month && st.second ≤ 59 then some st
  else Option.none

/-- Run a full format (token list) against the input.  The whole input must be
consumed, after which the constructor validation runs. -/
def runToks : List FmtTok → PyDatetime → List Char → Option PyDatetime
  | [], st, cs => if cs.isEmpty then validateDT st else Option.none
  | t :: ts, st, cs =>
    match matchTok t st cs with
    | some (st', cs') => runToks ts st' cs'
    | Option.none => Option.none

/-- The `strptime` default fields: year 1900, January 1st, midnight, naive. -/
def initDT : PyDatetime :=
  ⟨1900, 1, 1, 0, 0, 0, Option.none⟩

/-- Format `'%a, %d %b %Y %H:%M:%S %z'` (RFC 2822 with numeric offset). -/
def fmtRfc2822Off : List FmtTok :=
  [FmtTok.wday, FmtTok.lit ", ", FmtTok.day, FmtTok.lit " ", FmtTok.monName,
   FmtTok.lit " ", FmtTok.year4, FmtTok.lit " ", FmtTok.hour, FmtTok.lit ":",
   FmtTok.minute, FmtTok.lit ":", FmtTok.second, FmtTok.lit " ", FmtTok.tz]

/-- Format `'%a, %d %b %Y %H:%M:%S GMT'` (literal GMT, no offset captured). -/
def fmtRfc2822Gmt : List FmtTok :=
  [FmtTok.wday, FmtTok.lit ", ", FmtTok.day, FmtTok.lit " ", FmtTok.monName,
   FmtTok.lit " ", FmtTok.year4, FmtTok.lit " ", FmtTok.hour, FmtTok.lit ":",
   FmtTok.minute, FmtTok.lit ":", FmtTok.second, FmtTok.lit " GMT"]

/-- Format `'%a, %d %b %Y %H:%M:%S'`. -/
def fmtRfc2822Bare : List FmtTok :=
  [FmtTok.wday, FmtTok.lit ", ", FmtTok.day, FmtTok.lit " ", FmtTok.monName,
   FmtTok.lit " ", FmtTok.year4, FmtTok.lit " ", FmtTok.hour, FmtTok.lit ":",
   FmtTok.minute, FmtTok.lit ":", FmtTok.second]

/-- Format `'%Y-%m-%dT%H:%M:%S%z'` (ISO 8601 with offset). -/
def fmtIsoOff : List FmtTok :=
  [FmtTok.year4, FmtTok.lit "-", FmtTok.monNum, FmtTok.lit "-", FmtTok.day,
   FmtTok.lit "T", FmtTok.hour, FmtTok.lit ":", FmtTok.minute, FmtTok.lit ":",
   FmtTok.second, FmtTok.tz]

/-- Format `'%Y-%m-%dT%H:%M:%SZ'` (literal Z, no offset captured). -/
def fmtIsoZ : List FmtTok :=
  [FmtTok.year4, FmtTok.lit "-", FmtTok.monNum, FmtTok.lit "-", FmtTok.day,
   FmtTok.lit "T", FmtTok.hour, FmtTok.lit ":", FmtTok.minute, FmtTok.lit ":",
   FmtTok.second, FmtTok.lit "Z"]

/-- Format `'%Y-%m-%d %H:%M:%S'`. -/
def fmtIsoSpace : List FmtTok :=
  [FmtTok.year4, FmtTok.lit "-", FmtTok.monNum, FmtTok.lit "-", FmtTok.day,
   FmtTok.lit " ", FmtTok.hour, FmtTok.lit ":", FmtTok.minute, FmtTok.lit ":",
   FmtTok.second]

/-- Format `'%Y-%m-%d'`. -/
def fmtDateOnly : List FmtTok :=
  [FmtTok.year4, FmtTok.lit "-", FmtTok.monNum, FmtTok.lit "-", FmtTok.day]

/-- The ordered format list of `RSSParser._parse_date_string`
(src/src/rss_parser.py lines 153-161). -/
def dateFormats : List (List FmtTok) :=
  [fmtRfc2822Off, fmtRfc2822Gmt, fmtRfc2822Bare,
   fmtIsoOff, fmtIsoZ, fmtIsoSpace, fmtDateOnly]

/-- Try formats in order; the first one that matches wins and no further
format is tried (the `for fmt in formats` loop with `except ValueError:
continue`). -/
def tryFormats : List (List FmtTok) → String → Option PyDatetime
  | [], _ => Option.none
  | f :: fs, s =>
    match runToks f initDT s.data with
    | some dt => some dt
    | Option.none => tryFormats fs s

/-- `RSSParser._parse_date_string` (src/src/rss_parser.py lines 142-170): try
each format of the fixed list in order, returning the first successful parse,
or `None` when none matches. -/
def parse_date_string (s : String) : Option PyDatetime :=
  tryFormats dateFormats s

/-- Calling `_parse_date_string` on a record value: passing the Python `None`
object raises `TypeError` (which `except ValueError` does not catch). -/
def parse_date_val : PyVal → Except Unit (Option PyDatetime)
  | PyVal.none => Except.error ()
  | PyVal.str s => Except.ok (parse_date_string s)

/-!
Model of `RSSParser._clean_html` (src/src/rss_parser.py lines 172-198):
`re.sub(r'<[^>]+>', '', text)`, then `html.unescape`, then
`' '.join(text.split())`, then `str.strip()`.
-/

/-- Model of `re.sub(r'<[^>]+>', '', text)`: scanning left to right, an
opening `<` together with the run of at least one non-`>` character up to the
next `>` is removed.  A `<` immediately followed by `>` does not match (the
character class requires at least one character) and both are kept, as is a
trailing `<` span never closed by a `>`.  The second argument buffers, in
reverse, a potential tag span opened by a `<` that has not yet seen its
closing `>`. -/
def stripTagsGo : List Char → Option (List Char) → List Char
  | [], Option.none => []
  | [], some buf => buf.reverse
  | c :: rest, Option.none =>
    if c = '<' then stripTagsGo rest (some [c])
    else c :: stripTagsGo rest Option.none
  | c :: rest, some buf =>
    if c = '>' then
      if buf.length = 1 then '<' :: '>' :: stripTagsGo rest Option.none
      else stripTagsGo rest Option.none
    else stripTagsGo rest (some (c :: buf))

/-- Entry point of the tag-removal pass. -/
def stripTags (cs : List Char) : List Char :=
  stripTagsGo cs Option.none

/-- Model of the Python stdlib `html.unescape` restricted to the standard
named character references with trailing semicolon that this repository's
content can carry (`&quot;`, `&amp;`, `&lt;`, `&gt;`); other ampersands are
left untouched. -/
def unescapeChars : List Char → List Char
  | [] => []
  | '&' :: 'q' :: 'u' :: 'o' :: 't' :: ';' :: rest => '"' :: unescapeChars rest
  | '&' :: 'a' :: 'm' :: 'p' :: ';' :: rest => '&' :: unescapeChars rest
  | '&' :: 'l' :: 't' :: ';' :: rest => '<' :: unescapeChars rest
  | '&' :: 'g' :: 't' :: ';' :: rest => '>' :: unescapeChars rest
  | c :: rest => c :: unescapeChars rest

/-- Python `text.split()`: split on runs of whitespace, dropping empty
pieces. -/
def pySplitWs (cs : List Char) : List (List Char) :=
  (cs.splitOnP isPySpace).filter (fun w => !w.isEmpty)

/-- `RSSParser._clean_html` (src/src/rss_parser.py lines 172-198): empty or
falsy input yields the empty string; otherwise strip tags, decode entities,
collapse whitespace runs to single spaces and trim. -/
def clean_html (text : PyVal) : String :=
  match text with
  | PyVal.none => ""
  | PyVal.str s =>
    if s.isEmpty then ""
    else
      let cs1 := stripTags s.data
      let cs2 := unescapeChars cs1
      let cs3 := List.intercalate [' '] (pySplitWs cs2)
      String.mk (stripChars cs3)

/-!
Record shapes.  `RSSEntry` models a feedparser entry as consumed by
`RSSParser._normalize_rss_entry`; `RawAPIArticle` models one JSON article
object as consumed by `NewsAPIClient._normalize_article`.  In both, an
`Option`-wrapped field distinguishes a structurally absent attribute/key
(`Option.none`) from one that is present but may hold the Python `None`
object (`some PyVal.none`).
-/

/-- A feedparser time tuple (`entry.published_parsed`), already resolved to
calendar fields. -/
structure TimeTuple where
  year : Nat
  month : Nat
  day : Nat
  hour : Nat
  minute : Nat
  second : Nat
deriving DecidableEq

/-- One element of `entry.tags`: a mapping whose `term` key may be absent or
hold `None`. -/
structure RSSTag where
  term : Option PyVal := Option.none
deriving DecidableEq

/-- A feedparser entry.  `content` models `entry.content` as a list of
content objects, each contributing its `value` key. -/
structure RSSEntry where
  title : Option PyVal := Option.none
  link : Option PyVal := Option.none
  published_parsed : Option (Option TimeTuple) := Option.none
  published : Option PyVal := Option.none
  content : Option (List (Option PyVal)) := Option.none
  summary : Option PyVal := Option.none
  description : Option PyVal := Option.none
  tags : Option (List RSSTag) := Option.none
  category : Option PyVal := Option.none
deriving DecidableEq

/-- One raw article object from the NewsAPI JSON payload.  `sourceName`
models the value reached by `article['source']['name']` when
`article.get('source')` is truthy and carries a `name` key; `Option.none`
covers every case in which that path is absent or falsy. -/
structure RawAPIArticle where
  title : Option PyVal := Option.none
  url : Option PyVal := Option.none
  publishedAt : Option PyVal := Option.none
  sourceName : Option PyVal := Option.none
  content : Option PyVal := Option.none
  description : Option PyVal := Option.none
deriving DecidableEq

/-- The normalized article dictionary produced by both source normalizers
(the literal dict built at src/src/rss_parser.py lines 129-136 and
src/src/news_api.py lines 195-202).  The API variant can place the Python
`None` object under `url` and `content`, hence `PyVal` there. -/
structure NormArticle where
  title : String
  source : String
  url : PyVal
  publish_time : Option PyDatetime
  content : PyVal
  topic : String
deriving DecidableEq

/-- `NewsAPIClient._extract_topic` (src/src/news_api.py lines 204-229):
keyword match against the lowercased source name; the `article` argument is
accepted but unused by the code.  Total — it never raises. -/
def extract_topic (_article : RawAPIArticle) (source_name : String) : String :=
  let source_lower := pyLowerStr source_name
  if pyIn "techcrunch" source_lower || pyIn "tech" source_lower then "technology"
  else if pyIn "business" source_lower || pyIn "financial" source_lower then "business"
  else if pyIn "sports" source_lower then "sports"
  else if pyIn "health" source_lower || pyIn "medical" source_lower then "health"
  else if pyIn "science" source_lower then "science"
  else "general"

/-- `RSSParser._extract_topic_from_rss` (src/src/rss_parser.py lines
200-258): first a non-empty first tag, then the `category` attribute, then a
source-name dispatch that recognises only TechCrunch (fixed label) and
BBC / New York Times (URL-path inspection), and otherwise `"general"`.
Lower-casing a `None` tag term, category or link raises, which the caller's
`except` clause turns into a skipped record. -/
def extract_topic_from_rss (e : RSSEntry) (source_name : String) :
    Except Unit String := do
  let tagHit : Option String ←
    match e.tags with
    | some (t :: _) => do
      let first_tag ← pyLower (pyGetD t.term (PyVal.str ""))
      pure (if first_tag.isEmpty then Option.none else some first_tag)
    | _ => pure Option.none
  match tagHit with
  | some t => pure t
  | Option.none =>
    match e.category with
    | some v => do
      let c ← pyLower v
      pure c
    | Option.none => do
      let source_lower := pyLowerStr source_name
      if pyIn "techcrunch" source_lower then
        pure "technology"
      else if pyIn "bbc" source_lower then
        match e.link with
        | some lv => do
          let link ← pyLower lv
          if pyIn "/business/" link then pure "business"
          else if pyIn "/technology/" link then pure "technology"
          else if pyIn "/science/" link then pure "science"
          else if pyIn "/health/" link then pure "health"
          else if pyIn "/sport/" link then pure "sports"
          else pure "general"
        | Option.none => pure "general"
      else if pyIn "nytimes" source_lower || pyIn "nyt" source_lower then
        match e.link with
        | some lv => do
          let link ← pyLower lv
          if pyIn "/business/" link then pure "business"
          else if pyIn "/technology/" link || pyIn "/tech/" link then pure "technology"
          else if pyIn "/science/" link then pure "science"
          else if pyIn "/health/" link then pure "health"
          else if pyIn "/sports/" link then pure "sports"
          else pure "general"
        | Option.none => pure "general"
      else
        pure "general"

/-- Modelled from the spec: the TopicClassifier priority order of section 4.3
of the specification, stated independently of the code for comparison —
(1) the record's explicit first tag, lowercased, verbatim when non-empty;
(2) the keyword set tech / business / financial / sports / health / medical /
science matched against the lowercased source name; (3) the same keyword set
matched against the URL path; (4) the fallback label general. -/
def topicPerSpec (firstTag : Option String) (source_name : String)
    (url : Option String) : String :=
  match firstTag with
  | some t =>
    if !(pyLowerStr t).isEmpty then pyLowerStr t
    else topicPerSpecSteps2to4 source_name url
  | Option.none => topicPerSpecSteps2to4 source_name url
where
  keywordLabel (s : String) : Option String :=
    if pyIn "tech" s then some "technology"
    else if pyIn "business" s || pyIn "financial" s then some "business"
    else if pyIn "sports" s then some "sports"
    else if pyIn "health" s || pyIn "medical" s then some "health"
    else if pyIn "science" s then some "science"
    else Option.none
  topicPerSpecSteps2to4 (source_name : String) (url : Option String) : String :=
    match keywordLabel (pyLowerStr source_name) with
    | some t => t
    | Option.none =>
      match url with
      | some u =>
        match keywordLabel (pyLowerStr u) with
        | some t => t
        | Option.none => "general"
      | Option.none => "general"

/-!
The two source normalizers and their enclosing fetch loops.
-/

/-- The `published_parsed` branch of `_normalize_rss_entry` (src/src/
rss_parser.py lines 100-106): `time.mktime` followed by
`datetime.fromtimestamp`, which round-trips the tuple's calendar fields
through the local clock and yields a naive datetime.  Modelled as the
identity on the calendar fields with no UTC offset, assuming a round-trip
free of DST anomalies; the surrounding `try/except` is modelled by the
caller using the successful result directly. -/
def mkPublishTime (tt : TimeTuple) : PyDatetime :=
  ⟨tt.year, tt.month, tt.day, tt.hour, tt.minute, tt.second, Option.none⟩

/-- The body of `RSSParser._normalize_rss_entry` (src/src/rss_parser.py lines
85-136), before the enclosing `try/except`: `Except.error` models an
exception escaping the body, `Except.ok Option.none` the explicit `return
None` for a missing/empty title or URL. -/
def normalize_rss_entry_body (e : RSSEntry) (source_name : String) :
    Except Unit (Option NormArticle) := do
  let title ← pyStrip (pyGetD e.title (PyVal.str ""))
  if title.isEmpty then
    pure Option.none
  else do
    let url ← pyStrip (pyGetD e.link (PyVal.str ""))
    if url.isEmpty then
      pure Option.none
    else do
      let pt0 : Option PyDatetime :=
        match e.published_parsed with
        | some (some tt) => some (mkPublishTime tt)
        | _ => Option.none
      let publish_time : Option PyDatetime ←
        match pt0 with
        | some d => pure (some d)
        | Option.none =>
          match e.published with
          | some v => parse_date_val v
          | Option.none => pure Option.none
      let contentA : PyVal :=
        match e.content with
        | some (v :: _) => pyGetD v (PyVal.str "")
        | _ => PyVal.str ""
      let contentB : PyVal :=
        if pyTruthy contentA then contentA
        else pyOr (pyGetD e.summary (PyVal.str "")) (pyGetD e.description (PyVal.str ""))
      let content := clean_html contentB
      let topic ← extract_topic_from_rss e source_name
      pure (some { title := title, source := source_name, url := PyVal.str url,
                   publish_time := publish_time, content := PyVal.str content,
                   topic := topic })

/-- `RSSParser._normalize_rss_entry` (src/src/rss_parser.py lines 74-140):
the body with every escaping exception caught and converted to `None`. -/
def normalize_rss_entry (e : RSSEntry) (source_name : String) :
    Option NormArticle :=
  match normalize_rss_entry_body e source_name with
  | Except.ok r => r
  | Except.error _ => Option.none

/-- The entry loop of `RSSParser.parse_feed` (src/src/rss_parser.py lines
59-64): normalize each entry independently and keep the results that are
non-`None` and have a truthy `url`. -/
def parse_feed_entries (entries : List RSSEntry) (source_name : String) :
    List NormArticle :=
  match entries with
  | [] => []
  | e :: rest =>
    match normalize_rss_entry e source_name with
    | some a =>
      if pyTruthy a.url then a :: parse_feed_entries rest source_name
      else parse_feed_entries rest source_name
    | Option.none => parse_feed_entries rest source_name

/-- The ISO form without an offset, used by the `fromisoformat` model. -/
def fmtIsoNoOff : List FmtTok :=
  [FmtTok.year4, FmtTok.lit "-", FmtTok.monNum, FmtTok.lit "-", FmtTok.day,
   FmtTok.lit "T", FmtTok.hour, FmtTok.lit ":", FmtTok.minute, FmtTok.lit ":",
   FmtTok.second]

/-- Model of the Python stdlib `datetime.fromisoformat` restricted to the
strings this repository feeds it (`publishedAt` values with any `Z` already
replaced by `+00:00`): a date, a `T`, a time, and an optional numeric UTC
offset.  An unrecognised string raises `ValueError`, modelled as
`Option.none`. -/
def fromisoformatModel (s : String) : Option PyDatetime :=
  match runToks fmtIsoOff initDT s.data with
  | some dt => some dt
  | Option.none => runToks fmtIsoNoOff initDT s.data

/-- `NewsAPIClient._normalize_article` (src/src/news_api.py lines 166-202).
It always builds and returns the normalized dictionary — there is no
validation drop — but `article.get('title', '').strip()` raises
`AttributeError` when the `title` key holds the Python `None` object, and
that exception escapes this function. -/
def normalize_article (article : RawAPIArticle) (source_prefix0 : String) :
    Except Unit NormArticle := do
  let publish_time : Option PyDatetime :=
    match article.publishedAt with
    | some (PyVal.str s) =>
      if !s.isEmpty then fromisoformatModel (s.replace "Z" "+00:00")
      else Option.none
    | _ => Option.none
  let source_name : String :=
    match article.sourceName with
    | some (PyVal.str n) =>
      if !n.isEmpty then source_prefix0 ++ "-" ++ n else source_prefix0
    | _ => source_prefix0
  let topic := extract_topic article source_name
  let title ← pyStrip (pyGetD article.title (PyVal.str ""))
  let url := pyGetD article.url (PyVal.str "")
  let content := pyOr (pyGetD article.content (PyVal.str ""))
                      (pyGetD article.description (PyVal.str ""))
  pure { title := title, source := source_name, url := url,
         publish_time := publish_time, content := content, topic := topic }

/-- The list comprehension of `fetch_everything` (src/src/news_api.py lines
83-84): each raw article of a page is normalized in order, and the first
exception aborts the whole comprehension. -/
def normalizePage (articles : List RawAPIArticle) (source_prefix0 : String) :
    Except Unit (List NormArticle) :=
  match articles with
  | [] => Except.ok []
  | a :: rest => do
    let b ← normalize_article a source_prefix0
    let bs ← normalizePage rest source_prefix0
    pure (b :: bs)

/-- One page of the NewsAPI response as seen by the pagination loop:
`data['status'] == 'ok'`, `data.get('totalResults', 0)` and
`data.get('articles', [])`. -/
structure APIPage where
  statusOk : Bool
  totalResults : Nat
  articles : List RawAPIArticle

/-- The pagination loop of `NewsAPIClient.fetch_everything` (src/src/
news_api.py lines 61-107).  `pages i` is the response to the request for
page `i`.  Returns the accumulated normalized articles and the number of the
last page requested (pages `1 .. last` are exactly the ones issued).  The
`fuel` argument only bounds the recursion; the loop itself stops at page 10
via the `page > 10` check, so with the initial fuel of `fetch_everything`
the fuel is never exhausted. -/
def fetchGo (pages : Nat → APIPage) (page_size : Nat) (source_prefix0 : String) :
    Nat → Nat → List NormArticle → List NormArticle × Nat
  | 0, _, acc => (acc, 0)
  | fuel + 1, page, acc =>
    let pg := pages page
    if !pg.statusOk then (acc, page)
    else if pg.articles.isEmpty then (acc, page)
    else
      match normalizePage pg.articles source_prefix0 with
      | Except.error _ => (acc, page)
      | Except.ok normed =>
        let acc' := acc ++ normed
        if pg.totalResults ≤ acc'.length || pg.articles.length < page_size then
          (acc', page)
        else if 10 < page + 1 then (acc', page)
        else fetchGo pages page_size source_prefix0 fuel (page + 1) acc'

/-- The `pageSize` parameter actually sent to the API: the caller's value
clamped to the API limit of 100 (src/src/news_api.py line 54).  The loop's
short-page comparison at line 91 uses the unclamped caller value. -/
def requestedPageSize (page_size : Nat) : Nat :=
  min page_size 100

/-- `NewsAPIClient.fetch_everything` (src/src/news_api.py lines 19-107),
starting at page 1 with an empty accumulator.  Any exception escaping the
loop (for instance out of the normalization comprehension) is caught at the
top level and the articles accumulated so far are returned. -/
def fetch_everything (pages : Nat → APIPage) (page_size : Nat) :
    List NormArticle × Nat :=
  fetchGo pages page_size "NewsAPI" 20 1 []

/-!
The reconciliation pipeline (src/src/main.py) and the article store
(src/src/database.py).
-/

/-- An article dictionary as handled by the pipeline's filtering stage and
by the store: each field may be absent, or present with a value. -/
structure ArticleRecord where
  title : Option PyVal := Option.none
  source : Option PyVal := Option.none
  url : Option PyVal := Option.none
  publish_time : Option (Option PyDatetime) := Option.none
  content : Option PyVal := Option.none
  topic : Option PyVal := Option.none
deriving DecidableEq

/-- Truthiness of `article.get(key)` for a possibly absent field. -/
def truthyField (f : Option PyVal) : Bool :=
  match f with
  | some v => pyTruthy v
  | Option.none => false

/-- A normalizer output viewed as a pipeline record (every key present). -/
def NormArticle.toRecord (a : NormArticle) : ArticleRecord :=
  { title := some (PyVal.str a.title), source := some (PyVal.str a.source),
    url := some a.url, publish_time := some a.publish_time,
    content := some a.content, topic := some (PyVal.str a.topic) }

/-- The two backfill assignments of `_filter_valid_articles` (src/src/main.py
lines 166-172): `source = 'Unknown'` and `topic = 'general'` when the
respective field is falsy. -/
def backfill_defaults (a : ArticleRecord) : ArticleRecord :=
  let a1 := if truthyField a.source then a
            else { a with source := some (PyVal.str "Unknown") }
  if truthyField a1.topic then a1
  else { a1 with topic := some (PyVal.str "general") }

/-- `NewsIngestionPipeline._filter_valid_articles` (src/src/main.py lines
156-176): keep, in order, exactly the records with truthy `title` and `url`,
backfilling `source` and `topic` on the kept ones. -/
def filter_valid_articles : List ArticleRecord → List ArticleRecord
  | [] => []
  | a :: rest =>
    if truthyField a.title && truthyField a.url then
      backfill_defaults a :: filter_valid_articles rest
    else
      filter_valid_articles rest

/-- One `INSERT ... ON CONFLICT (url) DO NOTHING` into the articles table:
a row whose `url` value equals an existing row's is silently skipped. -/
def upsertOne (rows : List ArticleRecord) (a : ArticleRecord) :
    List ArticleRecord × Nat :=
  if rows.any (fun r => r.url = a.url) then (rows, 0)
  else (rows ++ [a], 1)

/-- The successful path of `DatabaseManager.insert_articles_batch`
(src/src/database.py lines 106-111): `executemany` of the upsert over the
batch, committed, reporting the number of rows actually inserted. -/
def insertBatchOk (rows : List ArticleRecord) :
    List ArticleRecord → List ArticleRecord × Nat
  | [] => (rows, 0)
  | a :: rest =>
    let p := upsertOne rows a
    let q := insertBatchOk p.1 rest
    (q.1, p.2 + q.2)

/-- `DatabaseManager.insert_articles_batch` (src/src/database.py lines
95-116).  `dbFails` models an exception raised by the batch execution: the
`except` clause rolls the transaction back — leaving the stored rows
unchanged — logs, and returns 0; no exception propagates to the caller. -/
def insert_articles_batch (dbFails : Bool) (rows : List ArticleRecord)
    (articles : List ArticleRecord) : List ArticleRecord × Nat :=
  if articles.isEmpty then (rows, 0)
  else if dbFails then (rows, 0)
  else insertBatchOk rows articles

/-- The statistics dictionary of `NewsIngestionPipeline.run` (src/src/main.py
lines 57-64), restricted to the fields the storage stage touches. -/
structure RunStats where
  newsapi_articles : Nat
  rss_articles : Nat
  total_fetched : Nat
  total_stored : Nat
  errors : List String
deriving DecidableEq

/-- Result of a pipeline run: the final statistics and the stored rows. -/
structure RunOutcome where
  stats : RunStats
  rows : List ArticleRecord
deriving DecidableEq

/-- The storage stage of `NewsIngestionPipeline.run` (src/src/main.py lines
77-126), given the already fetched article lists: concatenate, filter, batch
insert, and fill in the statistics.  `insert_articles_batch` never raises,
so this stage always completes normally; in particular a failed batch
(`dbFails = true`) adds nothing to `errors`. -/
def pipeline_run (dbFails : Bool) (rows : List ArticleRecord)
    (newsapiArts rssArts : List ArticleRecord) : RunOutcome :=
  let all := newsapiArts ++ rssArts
  let stats0 : RunStats :=
    { newsapi_articles := newsapiArts.length, rss_articles := rssArts.length,
      total_fetched := 0, total_stored := 0, errors := [] }
  if all.isEmpty then
    { stats := stats0, rows := rows }
  else
    let valid := filter_valid_articles all
    let p := insert_articles_batch dbFails rows valid
    { stats := { stats0 with total_stored := p.2, total_fetched := all.length },
      rows := p.1 }

/-!
Helper lemmas shared by the claim theorems.
-/

/-- Whether an `Except` computation succeeded. -/
def exceptOk {ε α : Type} : Except ε α → Bool
  | Except.ok _ => true
  | Except.error _ => false

theorem isPrefixOfCl_append_left :
    ∀ (xs ys l : List Char), isPrefixOfCl (xs ++ ys) l = true →
      isPrefixOfCl xs l = true := by
  intro xs
  induction xs with
  | nil => intro ys l _; rfl
  | cons a as ih =>
    intro ys l h
    cases l with
    | nil => simp [isPrefixOfCl] at h
    | cons b bs =>
      simp only [List.cons_append, isPrefixOfCl, Bool.and_eq_true] at h ⊢
      exact ⟨h.1, ih ys bs h.2⟩

theorem containsSub_mono (s1 s2 : List Char)
    (hp : ∀ l, isPrefixOfCl s1 l = true → isPrefixOfCl s2 l = true)
    (hne : s1 = [] → s2 = []) :
    ∀ l, containsSub s1 l = true → containsSub s2 l = true := by
  intro l
  induction l with
  | nil =>
    intro h
    simp only [containsSub, List.isEmpty_iff] at h ⊢
    exact hne h
  | cons c rest ih =>
    intro h
    simp only [containsSub, Bool.or_eq_true] at h ⊢
    rcases h with h | h
    · exact Or.inl (hp _ h)
    · exact Or.inr (ih h)

theorem pyIn_techcrunch_tech (s : String) :
    pyIn "techcrunch" s = true → pyIn "tech" s = true := by
  intro h
  refine containsSub_mono _ _ (fun l hl => ?_) (by intro h'; simp at h') _ h
  exact isPrefixOfCl_append_left "tech".data "crunch".data l hl

theorem parse_feed_entries_append (xs ys : List RSSEntry) (s : String) :
    parse_feed_entries (xs ++ ys) s =
      parse_feed_entries xs s ++ parse_feed_entries ys s := by
  induction xs with
  | nil => simp [parse_feed_entries]
  | cons e rest ih =>
    simp only [List.cons_append, parse_feed_entries]
    cases normalize_rss_entry e s with
    | none => exact ih
    | some a =>
      by_cases hu : pyTruthy a.url = true
      · simp [hu, ih]
      · simp [Bool.eq_false_iff.mpr hu, ih]

theorem normalizePage_cons (a : RawAPIArticle) (rest : List RawAPIArticle)
    (p : String) :
    normalizePage (a :: rest) p =
      (normalize_article a p).bind (fun b =>
        (normalizePage rest p).bind (fun bs => Except.ok (b :: bs))) := by
  rfl

theorem normalizePage_length :
    ∀ (ras : List RawAPIArticle) (p : String) (l : List NormArticle),
      normalizePage ras p = Except.ok l → l.length = ras.length := by
  intro ras p
  induction ras with
  | nil =>
    intro l h
    simp only [normalizePage] at h
    cases h
    rfl
  | cons a rest ih =>
    intro l h
    rw [normalizePage_cons] at h
    cases ha : normalize_article a p with
    | error e => rw [ha] at h; simp [Except.bind] at h
    | ok b =>
      rw [ha] at h
      cases hr : normalizePage rest p with
      | error e => rw [hr] at h; simp [Except.bind] at h
      | ok bs =>
        rw [hr] at h
        simp only [Except.bind, Except.ok.injEq] at h
        subst h
        simp [ih bs hr]

theorem normalizePage_error_of_mem :
    ∀ (ras : List RawAPIArticle) (p : String) (r : RawAPIArticle),
      r ∈ ras → normalize_article r p = Except.error () →
      normalizePage ras p = Except.error () := by
  intro ras p
  induction ras with
  | nil => intro r hr _; cases hr
  | cons a rest ih =>
    intro r hr herr
    rw [normalizePage_cons]
    rcases List.mem_cons.mp hr with h | h
    · subst h
      rw [herr]
      rfl
    · cases ha : normalize_article a p with
      | error e => cases e; rfl
      | ok b =>
        rw [ih r h herr]
        rfl

theorem matchTok_offset (t : FmtTok) (st : PyDatetime) (cs : List Char)
    (st' : PyDatetime) (cs' : List Char) (ht : t ≠ FmtTok.tz)
    (h : matchTok t st cs = some (st', cs')) :
    st'.utcOffsetMinutes = st.utcOffsetMinutes := by
  cases t with
  | lit s =>
    simp only [matchTok, Option.map_eq_some'] at h
    obtain ⟨rest, _, h2⟩ := h
    cases h2
    rfl
  | tz => exact absurd rfl ht
  | wday =>
    simp only [matchTok, Option.map_eq_some'] at h
    obtain ⟨p, _, h2⟩ := h
    cases h2
    rfl
  | day =>
    simp only [matchTok, Option.map_eq_some'] at h
    obtain ⟨p, _, h2⟩ := h
    cases h2
    rfl
  | monName =>
    simp only [matchTok, Option.map_eq_some'] at h
    obtain ⟨p, _, h2⟩ := h
    cases h2
    rfl
  | monNum =>
    simp only [matchTok, Option.map_eq_some'] at h
    obtain ⟨p, _, h2⟩ := h
    cases h2
    rfl
  | year4 =>
    simp only [matchTok, Option.map_eq_some'] at h
    obtain ⟨p, _, h2⟩ := h
    cases h2
    rfl
  | hour =>
    simp only [matchTok, Option.map_eq_some'] at h
    obtain ⟨p, _, h2⟩ := h
    cases h2
    rfl
  | minute =>
    simp only [matchTok, Option.map_eq_some'] at h
    obtain ⟨p, _, h2⟩ := h
    cases h2
    rfl
  | second =>
    simp only [matchTok, Option.map_eq_some'] at h
    obtain ⟨p, _, h2⟩ := h
    cases h2
    rfl

theorem validateDT_eq (st dt : PyDatetime) (h : validateDT st = some dt) :
    dt = st := by
  simp only [validateDT] at h
  split at h
  · cases h; rfl
  · cases h

theorem runToks_no_tz :
    ∀ (toks : List FmtTok) (st : PyDatetime) (cs : List Char) (dt : PyDatetime),
      FmtTok.tz ∉ toks → runToks toks st cs = some dt →
      dt.utcOffsetMinutes = st.utcOffsetMinutes := by
  intro toks
  induction toks with
  | nil =>
    intro st cs dt _ h
    simp only [runToks] at h
    split at h
    · rw [validateDT_eq st dt h]
    · cases h
  | cons t ts ih =>
    intro st cs dt hmem h
    simp only [runToks] at h
    cases hm : matchTok t st cs with
    | none => rw [hm] at h; cases h
    | some p =>
      obtain ⟨st', cs'⟩ := p
      rw [hm] at h
      have ht : t ≠ FmtTok.tz := fun he => hmem (he ▸ List.mem_cons_self t ts)
      have hts : FmtTok.tz ∉ ts := fun he => hmem (List.mem_cons_of_mem t he)
      rw [ih st' cs' dt hts h]
      exact matchTok_offset t st cs st' cs' ht hm

/-- Total number of raw articles carried by pages `1 .. i`. -/
def cntTo (pages : Nat → APIPage) : Nat → Nat
  | 0 => 0
  | i + 1 => cntTo pages i + (pages (i + 1)).articles.length

/-- All conditions under which the pagination loop, having processed page
`i`, goes on to request page `i + 1` (other than the page-10 ceiling). -/
def fetchContinueAt (pages : Nat → APIPage) (page_size : Nat) (p0 : String)
    (i : Nat) : Prop :=
  (pages i).statusOk = true ∧
  (pages i).articles ≠ [] ∧
  exceptOk (normalizePage (pages i).articles p0) = true ∧
  cntTo pages i < (pages i).totalResults ∧
  page_size ≤ (pages i).articles.length

/-- Some stop condition of the pagination loop holds at page `i`: non-ok
status, empty page, a normalization failure, the accumulated count reaching
the reported total, or a page shorter than the requested size. -/
def fetchStopAt (pages : Nat → APIPage) (page_size : Nat) (p0 : String)
    (i : Nat) : Prop :=
  (pages i).statusOk = false ∨
  (pages i).articles = [] ∨
  exceptOk (normalizePage (pages i).articles p0) = false ∨
  (pages i).totalResults ≤ cntTo pages i ∨
  (pages i).articles.length < page_size

theorem fetchGo_pages (pages : Nat → APIPage) (psz : Nat) (p0 : String) :
    ∀ (fuel page : Nat) (acc : List NormArticle),
      1 ≤ page → page ≤ 10 → 21 ≤ fuel + page →
      acc.length = cntTo pages (page - 1) →
      page ≤ (fetchGo pages psz p0 fuel page acc).2 ∧
      (fetchGo pages psz p0 fuel page acc).2 ≤ 10 ∧
      (∀ i, page ≤ i → i < (fetchGo pages psz p0 fuel page acc).2 →
        fetchContinueAt pages psz p0 i) ∧
      ((fetchGo pages psz p0 fuel page acc).2 = 10 ∨
        fetchStopAt pages psz p0 (fetchGo pages psz p0 fuel page acc).2) := by
  intro fuel
  induction fuel with
  | zero =>
    intro page acc h1 h10 hf _
    omega
  | succ fuel ih =>
    intro page acc h1 h10 hf hacc
    by_cases hs : (pages page).statusOk = true
    · by_cases hemp : (pages page).articles.isEmpty = true
      · have hres : fetchGo pages psz p0 (fuel + 1) page acc = (acc, page) := by
          simp [fetchGo, hs, hemp]
        rw [hres]
        refine ⟨le_refl _, h10, fun i hi hi' => absurd hi (by omega), Or.inr ?_⟩
        exact Or.inr (Or.inl (List.isEmpty_iff.mp hemp))
      · cases hnorm : normalizePage (pages page).articles p0 with
        | error e =>
          have hres : fetchGo pages psz p0 (fuel + 1) page acc = (acc, page) := by
            simp [fetchGo, hs, hemp, hnorm]
          rw [hres]
          refine ⟨le_refl _, h10, fun i hi hi' => absurd hi (by omega), Or.inr ?_⟩
          exact Or.inr (Or.inr (Or.inl (by rw [hnorm]; rfl)))
        | ok normed =>
          have hlen : normed.length = (pages page).articles.length :=
            normalizePage_length _ _ _ hnorm
          have hcnt : acc.length + normed.length = cntTo pages page := by
            obtain ⟨q, rfl⟩ : ∃ q, page = q + 1 := ⟨page - 1, by omega⟩
            simp only [Nat.add_sub_cancel] at hacc
            simp only [hlen, cntTo]
            omega
          by_cases hstop :
              ((pages page).totalResults ≤ acc.length + normed.length ∨
                (pages page).articles.length < psz)
          · have hres : fetchGo pages psz p0 (fuel + 1) page acc =
                (acc ++ normed, page) := by
              simp [fetchGo, hs, hemp, hnorm]
              intro hc1 hc2 _
              exfalso
              rcases hstop with h | h <;> omega
            rw [hres]
            refine ⟨le_refl _, h10, fun i hi hi' => absurd hi (by omega), Or.inr ?_⟩
            rcases hstop with h | h
            · refine Or.inr (Or.inr (Or.inr (Or.inl ?_)))
              show (pages page).totalResults ≤ cntTo pages page
              omega
            · refine Or.inr (Or.inr (Or.inr (Or.inr ?_)))
              exact h
          · push_neg at hstop
            obtain ⟨hstop1, hstop2⟩ := hstop
            by_cases hceil : 10 < page + 1
            · have hres : fetchGo pages psz p0 (fuel + 1) page acc =
                  (acc ++ normed, page) := by
                simp [fetchGo, hs, hemp, hnorm, hceil]
              rw [hres]
              have hp10 : page = 10 := by omega
              exact ⟨le_refl _, h10, fun i hi hi' => absurd hi (by omega),
                Or.inl hp10⟩
            · have hres : fetchGo pages psz p0 (fuel + 1) page acc =
                  fetchGo pages psz p0 fuel (page + 1) (acc ++ normed) := by
                simp [fetchGo, hs, hemp, hnorm, hceil]
                intro hc
                exfalso
                rcases hc with h | h <;> omega
              rw [hres]
              have hrec := ih (page + 1) (acc ++ normed) (by omega) (by omega)
                (by omega)
                (by simp only [Nat.add_sub_cancel, List.length_append]; exact hcnt)
              obtain ⟨hr1, hr2, hr3, hr4⟩ := hrec
              refine ⟨by omega, hr2, ?_, hr4⟩
              intro i hi hi'
              rcases Nat.eq_or_lt_of_le hi with hieq | hilt
              · subst hieq
                refine ⟨hs, fun hel => hemp (List.isEmpty_iff.mpr hel),
                  by rw [hnorm]; rfl, by omega, hstop2⟩
              · exact hr3 i (by omega) hi'
    · have hs' : (pages page).statusOk = false := by
        cases h : (pages page).statusOk
        · rfl
        · exact absurd h hs
      have hres : fetchGo pages psz p0 (fuel + 1) page acc = (acc, page) := by
        simp [fetchGo, hs']
      rw [hres]
      exact ⟨le_refl _, h10, fun i hi hi' => absurd hi (by omega),
        Or.inr (Or.inl hs')⟩

/-!
Claim theorems.
-/

/-- The claim C1 condition "title or url missing or empty after trimming" on
a feed-entry attribute: absent, holding Python `None`, or stripping to the
empty string. -/
def rssFieldBad (f : Option PyVal) : Bool :=
  match pyGetD f (PyVal.str "") with
  | PyVal.none => true
  | PyVal.str s => (pyStripStr s).isEmpty

/-- A raw API record with a missing title and a usable url. -/
def apiNoTitleRec : RawAPIArticle :=
  { url := some (PyVal.str "https://example.com/a") }

/-- The article the API normalizer emits for `apiNoTitleRec`. -/
def apiNoTitleNorm : NormArticle :=
  { title := "", source := "NewsAPI", url := PyVal.str "https://example.com/a",
    publish_time := Option.none, content := PyVal.str "", topic := "general" }

/-- C1, counterexample: the claim says both normalization variants drop a
record whose title is missing, producing no Article; but on a raw API record
with no `title` key the API variant returns an Article whose `title` is the
empty string instead of dropping it. -/
theorem C1_counterexample :
    normalize_article apiNoTitleRec "NewsAPI" = Except.ok apiNoTitleNorm ∧
    apiNoTitleNorm.title = "" := by
  constructor
  · decide
  · rfl

/-- C1, amended: the Feed variant returns `None` for every entry whose title
or link is missing or empty after trimming; the API variant never drops a
record, but any produced Article with an empty title or url is removed by
the pipeline's filtering stage. -/
theorem C1_amended :
    (∀ (e : RSSEntry) (s : String),
        (rssFieldBad e.title || rssFieldBad e.link) = true →
        normalize_rss_entry e s = Option.none) ∧
    (∀ (r : RawAPIArticle) (p : String) (a : NormArticle),
        normalize_article r p = Except.ok a →
        a.title = "" ∨ pyTruthy a.url = false →
        filter_valid_articles [a.toRecord] = []) := by
  constructor
  · intro e s h
    simp only [rssFieldBad, Bool.or_eq_true] at h
    unfold normalize_rss_entry normalize_rss_entry_body
    cases h1 : pyGetD e.title (PyVal.str "") with
    | none => simp [h1, pyStrip, Bind.bind, Except.bind]
    | str st =>
      rw [h1] at h
      by_cases hte : (pyStripStr st).isEmpty = true
      · simp [h1, pyStrip, Bind.bind, Except.bind, hte, pure, Except.pure]
      · cases h2 : pyGetD e.link (PyVal.str "") with
        | none =>
          simp [h1, h2, pyStrip, Bind.bind, Except.bind, hte, pure, Except.pure]
        | str sl =>
          have hlink : (pyStripStr sl).isEmpty = true := by
            rcases h with h | h
            · exact absurd h hte
            · rw [h2] at h; exact h
          simp [h1, h2, pyStrip, Bind.bind, Except.bind, hte, hlink, pure,
            Except.pure]
  · intro r p a _ hbad
    rcases hbad with h | h
    · simp only [filter_valid_articles, NormArticle.toRecord, truthyField, h]
      have : pyTruthy (PyVal.str "") = false := by decide
      simp [this]
    · simp only [filter_valid_articles, NormArticle.toRecord, truthyField, h]
      simp

/-- C1, witness: the amended theorem applied at a concrete dropped feed
entry and at the concrete API article with empty title. -/
theorem C1_witness :
    normalize_rss_entry { title := some (PyVal.str "  ") } "BBC" = Option.none ∧
    filter_valid_articles [apiNoTitleNorm.toRecord] = [] :=
  ⟨C1_amended.1 { title := some (PyVal.str "  ") } "BBC" (by decide),
   C1_amended.2 apiNoTitleRec "NewsAPI" apiNoTitleNorm (by decide) (Or.inl rfl)⟩

/-- C3, counterexample: the claim says every successful date normalization
yields a timezone-aware instant, but the recognized format
`'%Y-%m-%d %H:%M:%S'` matches `"2024-01-01 12:00:00"` and produces a naive
datetime (no UTC offset). -/
theorem C3_counterexample :
    parse_date_string "2024-01-01 12:00:00" =
      some ⟨2024, 1, 1, 12, 0, 0, Option.none⟩ := by
  decide

/-- C3, amended: a successful string parse is timezone-aware only when the
string matched one of the two `%z` formats (RFC 2822 with numeric offset, or
ISO 8601 with offset — the latter also matching a literal `Z`); every other
recognized string format, and the structured time-tuple path, yields a naive
datetime. -/
theorem C3_amended :
    (∀ (s : String) (dt : PyDatetime),
        parse_date_string s = some dt →
        dt.utcOffsetMinutes.isSome = true →
        runToks fmtRfc2822Off initDT s.data = some dt ∨
        runToks fmtIsoOff initDT s.data = some dt) ∧
    (∀ tt : TimeTuple, (mkPublishTime tt).utcOffsetMinutes = Option.none) := by
  constructor
  · intro s dt h hsome
    simp only [parse_date_string, dateFormats, tryFormats] at h
    cases h0 : runToks fmtRfc2822Off initDT s.data with
    | some d =>
      rw [h0] at h
      injection h with h
      subst h
      exact Or.inl rfl
    | none =>
      rw [h0] at h
      cases h1 : runToks fmtRfc2822Gmt initDT s.data with
      | some d =>
        rw [h1] at h
        injection h with h
        subst h
        have := runToks_no_tz fmtRfc2822Gmt initDT s.data d (by decide) h1
        rw [this] at hsome
        simp [initDT] at hsome
      | none =>
        rw [h1] at h
        cases h2 : runToks fmtRfc2822Bare initDT s.data with
        | some d =>
          rw [h2] at h
          injection h with h
          subst h
          have := runToks_no_tz fmtRfc2822Bare initDT s.data d (by decide) h2
          rw [this] at hsome
          simp [initDT] at hsome
        | none =>
          rw [h2] at h
          cases h3 : runToks fmtIsoOff initDT s.data with
          | some d =>
            rw [h3] at h
            injection h with h
            subst h
            exact Or.inr rfl
          | none =>
            rw [h3] at h
            cases h4 : runToks fmtIsoZ initDT s.data with
            | some d =>
              rw [h4] at h
              injection h with h
              subst h
              have := runToks_no_tz fmtIsoZ initDT s.data d (by decide) h4
              rw [this] at hsome
              simp [initDT] at hsome
            | none =>
              rw [h4] at h
              cases h5 : runToks fmtIsoSpace initDT s.data with
              | some d =>
                rw [h5] at h
                injection h with h
                subst h
                have := runToks_no_tz fmtIsoSpace initDT s.data d (by decide) h5
                rw [this] at hsome
                simp [initDT] at hsome
              | none =>
                rw [h5] at h
                cases h6 : runToks fmtDateOnly initDT s.data with
                | some d =>
                  rw [h6] at h
                  injection h with h
                  subst h
                  have := runToks_no_tz fmtDateOnly initDT s.data d (by decide) h6
                  rw [this] at hsome
                  simp [initDT] at hsome
                | none =>
                  rw [h6] at h
                  cases h
  · intro tt
    rfl

/-- C3, witness: the amended theorem applied to the one example string that
does match a `%z` format. -/
theorem C3_witness :
    runToks fmtRfc2822Off initDT "2024-01-01T12:00:00Z".data =
        some ⟨2024, 1, 1, 12, 0, 0, some 0⟩ ∨
    runToks fmtIsoOff initDT "2024-01-01T12:00:00Z".data =
        some ⟨2024, 1, 1, 12, 0, 0, some 0⟩ :=
  C3_amended.1 "2024-01-01T12:00:00Z" ⟨2024, 1, 1, 12, 0, 0, some 0⟩
    (by decide) (by decide)

/-- A concrete valid article record used by the C4 counterexample. -/
def c4Article : ArticleRecord :=
  { title := some (PyVal.str "T"), url := some (PyVal.str "https://example.com/t") }

/-- C4, counterexample: the claim says a failed batch upsert is surfaced as a
pipeline-level failure with the failure recorded in the error list; but on a
run with one valid article whose batch insert fails, the pipeline completes
normally, reports a stored count of zero, and records no error at all (the
rollback does leave the store unchanged). -/
theorem C4_counterexample :
    pipeline_run true [] [c4Article] [] =
      { stats := { newsapi_articles := 1, rss_articles := 0, total_fetched := 1,
                   total_stored := 0, errors := [] },
        rows := [] } := by
  decide

/-- C4, amended: when the batch upsert fails, its transaction is rolled back
so the store is left unchanged and the call returns 0; the pipeline then
completes normally, reporting a stored count of 0 with no entry added to the
error list — the failure is not surfaced to the pipeline's caller. -/
theorem C4_amended :
    ∀ (rows arts napi rss : List ArticleRecord),
      insert_articles_batch true rows arts = (rows, 0) ∧
      (pipeline_run true rows napi rss).rows = rows ∧
      (pipeline_run true rows napi rss).stats.total_stored = 0 ∧
      (pipeline_run true rows napi rss).stats.errors = [] := by
  intro rows arts napi rss
  have hb : ∀ l, insert_articles_batch true rows l = (rows, 0) := by
    intro l
    simp [insert_articles_batch]
  refine ⟨hb arts, ?_, ?_, ?_⟩ <;>
    · simp only [pipeline_run, hb]
      split <;> rfl

/-- C5: the reconciliation filtering stage outputs exactly the records with
truthy (non-empty) title and url, in order; every output record has a
populated source and topic (backfilled to "Unknown" / "general" when falsy);
and apart from those two backfills no field of a kept record is changed. -/
theorem C5_filter_stage :
    ∀ (arts : List ArticleRecord),
      filter_valid_articles arts =
        (arts.filter
          (fun a => truthyField a.title && truthyField a.url)).map
            backfill_defaults ∧
      (∀ a ∈ filter_valid_articles arts,
        truthyField a.source = true ∧ truthyField a.topic = true) ∧
      (∀ a : ArticleRecord,
        (backfill_defaults a).title = a.title ∧
        (backfill_defaults a).url = a.url ∧
        (backfill_defaults a).publish_time = a.publish_time ∧
        (backfill_defaults a).content = a.content ∧
        (truthyField a.source = true → (backfill_defaults a).source = a.source) ∧
        (truthyField a.topic = true → (backfill_defaults a).topic = a.topic) ∧
        (truthyField a.source = false →
          (backfill_defaults a).source = some (PyVal.str "Unknown")) ∧
        (truthyField a.topic = false →
          (backfill_defaults a).topic = some (PyVal.str "general"))) := by
  have hpres : ∀ a : ArticleRecord,
      (backfill_defaults a).title = a.title ∧
      (backfill_defaults a).url = a.url ∧
      (backfill_defaults a).publish_time = a.publish_time ∧
      (backfill_defaults a).content = a.content ∧
      (truthyField a.source = true → (backfill_defaults a).source = a.source) ∧
      (truthyField a.topic = true → (backfill_defaults a).topic = a.topic) ∧
      (truthyField a.source = false →
        (backfill_defaults a).source = some (PyVal.str "Unknown")) ∧
      (truthyField a.topic = false →
        (backfill_defaults a).topic = some (PyVal.str "general")) := by
    intro a
    have hU : truthyField (some (PyVal.str "Unknown")) = true := by decide
    have hG : truthyField (some (PyVal.str "general")) = true := by decide
    by_cases hsrc : truthyField a.source = true <;>
      by_cases htop : truthyField a.topic = true <;>
        simp [backfill_defaults, hsrc, htop, hU, hG]
  have hbt : ∀ a : ArticleRecord,
      truthyField (backfill_defaults a).source = true ∧
      truthyField (backfill_defaults a).topic = true := by
    intro a
    have hU : truthyField (some (PyVal.str "Unknown")) = true := by decide
    have hG : truthyField (some (PyVal.str "general")) = true := by decide
    by_cases hsrc : truthyField a.source = true <;>
      by_cases htop : truthyField a.topic = true <;>
        simp [backfill_defaults, hsrc, htop, hU, hG]
  have heq : ∀ arts : List ArticleRecord,
      filter_valid_articles arts =
        (arts.filter
          (fun a => truthyField a.title && truthyField a.url)).map
            backfill_defaults := by
    intro arts
    induction arts with
    | nil => rfl
    | cons a rest ih =>
      by_cases hc : (truthyField a.title && truthyField a.url) = true
      · simp [filter_valid_articles, List.filter_cons, hc, ih]
      · simp [filter_valid_articles, List.filter_cons, hc, ih,
          Bool.not_eq_true]
  intro arts
  refine ⟨heq arts, ?_, hpres⟩
  intro a ha
  rw [heq arts] at ha
  obtain ⟨b, _, rfl⟩ := List.mem_map.mp ha
  exact hbt b

/-- C5, witness: the theorem applied to a concrete two-record list — the
record with an empty url is dropped, the kept record gets its missing source
and topic backfilled. -/
theorem C5_witness :
    filter_valid_articles
        [{ title := some (PyVal.str "T"), url := some (PyVal.str "u") },
         { title := some (PyVal.str "T2"), url := some (PyVal.str "") }] =
      [{ title := some (PyVal.str "T"), url := some (PyVal.str "u"),
         source := some (PyVal.str "Unknown"),
         topic := some (PyVal.str "general") }] ∧
    truthyField
      ({ title := some (PyVal.str "T"), url := some (PyVal.str "u"),
         source := some (PyVal.str "Unknown"),
         topic := some (PyVal.str "general") } : ArticleRecord).source = true := by
  constructor
  · have h := (C5_filter_stage
      [{ title := some (PyVal.str "T"), url := some (PyVal.str "u") },
       { title := some (PyVal.str "T2"), url := some (PyVal.str "") }]).1
    rw [h]
    decide
  · exact ((C5_filter_stage
      [{ title := some (PyVal.str "T"), url := some (PyVal.str "u") }]).2.1
        _ (by decide)).1

/-- C6, counterexample: the claim's step (2) — keyword match against the
lowercased source name — would classify an untagged feed entry from source
"Business Daily" as "business", but the RSS variant's source-name step only
recognises TechCrunch/BBC/NYT names and returns "general" for it. -/
theorem C6_counterexample :
    extract_topic_from_rss {} "Business Daily" = Except.ok "general" ∧
    topicPerSpec Option.none "Business Daily" Option.none = "business" ∧
    ("general" : String) ≠ "business" :=
  ⟨by decide, by decide, by decide⟩

/-- C6, amended: a non-empty first tag wins, lowercased and verbatim,
regardless of the source name (RSS variant); the keyword-priority step of the
spec describes exactly the API variant, which implements it for every source
name; and both documented examples hold.  The RSS variant, however, does not
perform the keyword match on source names: outside TechCrunch/BBC/NYT it
falls straight to "general". -/
theorem C6_amended :
    (∀ (e : RSSEntry) (s : String) (t : RSSTag) (ts : List RSSTag)
        (tag : String),
        e.tags = some (t :: ts) → t.term = some (PyVal.str tag) →
        (pyLowerStr tag).isEmpty = false →
        extract_topic_from_rss e s = Except.ok (pyLowerStr tag)) ∧
    (∀ (a : RawAPIArticle) (s : String),
        extract_topic a s = topicPerSpec Option.none s Option.none) ∧
    extract_topic {} "NewsAPI-TechCrunch" = "technology" ∧
    extract_topic_from_rss
        { tags := some [{ term := some (PyVal.str "Politics") }] } "BBC" =
      Except.ok "politics" := by
  refine ⟨?_, ?_, by decide, by decide⟩
  · intro e s t ts tag htags hterm hne
    simp [extract_topic_from_rss, htags, hterm, pyGetD, pyLower, Bind.bind,
      Except.bind, pure, Except.pure, hne]
  · intro a s
    simp only [extract_topic, topicPerSpec, topicPerSpec.topicPerSpecSteps2to4,
      topicPerSpec.keywordLabel]
    by_cases h1 : pyIn "tech" (pyLowerStr s) = true
    · have h1' : (pyIn "techcrunch" (pyLowerStr s) ||
          pyIn "tech" (pyLowerStr s)) = true := by
        simp [h1]
      simp [h1, h1']
    · have h0 : pyIn "techcrunch" (pyLowerStr s) = false := by
        cases hx : pyIn "techcrunch" (pyLowerStr s)
        · rfl
        · exact absurd (pyIn_techcrunch_tech _ hx) h1
      by_cases h2 : (pyIn "business" (pyLowerStr s) ||
          pyIn "financial" (pyLowerStr s)) = true <;>
        by_cases h3 : pyIn "sports" (pyLowerStr s) = true <;>
          by_cases h4 : (pyIn "health" (pyLowerStr s) ||
              pyIn "medical" (pyLowerStr s)) = true <;>
            by_cases h5 : pyIn "science" (pyLowerStr s) = true <;>
              simp [h0, h1, h2, h3, h4, h5]

/-- C6, witness: the tag-priority conjunct applied to the concrete entry
tagged "Politics" carried by a source whose name would otherwise classify as
technology. -/
theorem C6_witness :
    extract_topic_from_rss
        { tags := some [{ term := some (PyVal.str "Politics") }] }
        "TechCrunch" = Except.ok "politics" := by
  have h := C6_amended.1
    { tags := some [{ term := some (PyVal.str "Politics") }] } "TechCrunch"
    { term := some (PyVal.str "Politics") } [] "Politics" rfl rfl (by decide)
  rw [h]
  decide

/-- C8: each of the three example date strings is parsed successfully by the
fixed ordered format list (none yields `None`), deterministically, with the
first matching format winning: every format earlier in the list than the
matching one fails on that string, and the overall result equals the
matching format's result. -/
theorem C8_three_formats :
    parse_date_string "Mon, 01 Jan 2024 12:00:00 GMT" =
      some ⟨2024, 1, 1, 12, 0, 0, Option.none⟩ ∧
    runToks fmtRfc2822Off initDT "Mon, 01 Jan 2024 12:00:00 GMT".data =
      Option.none ∧
    runToks fmtRfc2822Gmt initDT "Mon, 01 Jan 2024 12:00:00 GMT".data =
      some ⟨2024, 1, 1, 12, 0, 0, Option.none⟩ ∧
    parse_date_string "2024-01-01T12:00:00Z" =
      some ⟨2024, 1, 1, 12, 0, 0, some 0⟩ ∧
    runToks fmtRfc2822Off initDT "2024-01-01T12:00:00Z".data = Option.none ∧
    runToks fmtRfc2822Gmt initDT "2024-01-01T12:00:00Z".data = Option.none ∧
    runToks fmtRfc2822Bare initDT "2024-01-01T12:00:00Z".data = Option.none ∧
    runToks fmtIsoOff initDT "2024-01-01T12:00:00Z".data =
      some ⟨2024, 1, 1, 12, 0, 0, some 0⟩ ∧
    parse_date_string "2024-01-01 12:00:00" =
      some ⟨2024, 1, 1, 12, 0, 0, Option.none⟩ ∧
    runToks fmtRfc2822Off initDT "2024-01-01 12:00:00".data = Option.none ∧
    runToks fmtRfc2822Gmt initDT "2024-01-01 12:00:00".data = Option.none ∧
    runToks fmtRfc2822Bare initDT "2024-01-01 12:00:00".data = Option.none ∧
    runToks fmtIsoOff initDT "2024-01-01 12:00:00".data = Option.none ∧
    runToks fmtIsoZ initDT "2024-01-01 12:00:00".data = Option.none ∧
    runToks fmtIsoSpace initDT "2024-01-01 12:00:00".data =
      some ⟨2024, 1, 1, 12, 0, 0, Option.none⟩ := by
  decide

/-- C9: sanitizing the documented example yields exactly the documented
output — tags stripped, entities decoded, whitespace collapsed and trimmed —
and empty or absent input yields the empty string, never `None` (the model
returns a `String`, so no `None` is even expressible). -/
theorem C9_clean_html :
    clean_html
        (PyVal.str "<p>This is <b>HTML</b> content with &quot;quotes&quot;</p>") =
      "This is HTML content with \"quotes\"" ∧
    clean_html (PyVal.str "") = "" ∧
    clean_html PyVal.none = "" := by
  refine ⟨by decide, by decide, by decide⟩

/-- C10: for every API article record and every source-name string, the
API-variant topic extraction returns one of the six controlled labels and
never the empty string; being a total function of this type, it never
raises. -/
theorem C10_controlled_vocab :
    ∀ (a : RawAPIArticle) (s : String),
      (extract_topic a s = "technology" ∨ extract_topic a s = "business" ∨
       extract_topic a s = "sports" ∨ extract_topic a s = "health" ∨
       extract_topic a s = "science" ∨ extract_topic a s = "general") ∧
      extract_topic a s ≠ "" := by
  intro a s
  simp only [extract_topic]
  split_ifs <;> exact ⟨by simp, by simp⟩

/-- A raw API record that normalizes fine. -/
def c2Good : RawAPIArticle :=
  { title := some (PyVal.str "Good"), url := some (PyVal.str "https://example.com/g") }

/-- A raw API record whose `title` key holds the Python `None` object, so
`.strip()` raises inside `_normalize_article`. -/
def c2Bad : RawAPIArticle :=
  { title := some PyVal.none, url := some (PyVal.str "https://example.com/b") }

/-- Another raw API record that normalizes fine, placed after the bad one. -/
def c2Good2 : RawAPIArticle :=
  { title := some (PyVal.str "Good2"), url := some (PyVal.str "https://example.com/g2") }

/-- A page sequence whose first page holds a good, a bad and another good
record. -/
def c2Pages : Nat → APIPage := fun i =>
  if i = 1 then
    { statusOk := true, totalResults := 3, articles := [c2Good, c2Bad, c2Good2] }
  else
    { statusOk := true, totalResults := 3, articles := [] }

/-- C2, counterexample: the claim says a failure while mapping one record is
caught inside the normalizer and never truncates the remaining records of
the batch; but in the API path one record with a `None` title makes the
whole fetch return nothing — the two perfectly normalizable records of the
same page are lost. -/
theorem C2_counterexample :
    fetch_everything c2Pages 100 = ([], 1) ∧
    exceptOk (normalize_article c2Good "NewsAPI") = true ∧
    exceptOk (normalize_article c2Good2 "NewsAPI") = true := by
  refine ⟨by decide, by decide, by decide⟩

/-- C2, amended: in the RSS variant every per-record failure is caught inside
the normalizer and converted into a skipped record, so the batch outcome
distributes over its records — no entry can truncate the others; in the API
variant a per-record failure escapes the page's normalization mapping,
turning the whole page into a failure that the fetch catches only at top
level. -/
theorem C2_amended :
    (∀ (xs ys : List RSSEntry) (s : String),
        parse_feed_entries (xs ++ ys) s =
          parse_feed_entries xs s ++ parse_feed_entries ys s) ∧
    (∀ (ras : List RawAPIArticle) (p : String) (r : RawAPIArticle),
        r ∈ ras → normalize_article r p = Except.error () →
        normalizePage ras p = Except.error ()) :=
  ⟨parse_feed_entries_append, normalizePage_error_of_mem⟩

/-- C2, witness: the amended theorem applied to the concrete bad page. -/
theorem C2_witness :
    normalizePage [c2Good, c2Bad, c2Good2] "NewsAPI" = Except.error () :=
  C2_amended.2 [c2Good, c2Bad, c2Good2] "NewsAPI" c2Bad (by decide) (by decide)

/-- C7: the pagination loop requests pages 1, 2, ... up to a last page
`last`; always at least one and never more than the ceiling of 10; for every
page before `last` none of the stop conditions held — in particular each
such page carried at least `page_size` articles and the accumulated count
was still below the reported total, so as soon as a page is short or the
total is reached no further page is requested (a short page 3 means page 4
is never issued); and conversely the loop only stops at the ceiling or when
one of the documented stop conditions holds at the last page. -/
theorem C7_pagination :
    ∀ (pages : Nat → APIPage) (page_size : Nat),
      1 ≤ (fetch_everything pages page_size).2 ∧
      (fetch_everything pages page_size).2 ≤ 10 ∧
      (∀ i, 1 ≤ i → i < (fetch_everything pages page_size).2 →
        fetchContinueAt pages page_size "NewsAPI" i) ∧
      ((fetch_everything pages page_size).2 = 10 ∨
        fetchStopAt pages page_size "NewsAPI"
          (fetch_everything pages page_size).2) := by
  intro pages psz
  have h := fetchGo_pages pages psz "NewsAPI" 20 1 []
    (by omega) (by omega) (by omega) rfl
  exact ⟨h.1, h.2.1, h.2.2.1, h.2.2.2⟩

/-- A concrete page sequence: page 1 full (2 articles at page size 2,
total 5), page 2 short (1 article), so the fetch stops after page 2. -/
def c7Pages : Nat → APIPage := fun i =>
  if i = 1 then { statusOk := true, totalResults := 5, articles := [{}, {}] }
  else if i = 2 then { statusOk := true, totalResults := 5, articles := [{}] }
  else { statusOk := true, totalResults := 5, articles := [] }

/-- C7, witness: on the concrete sequence the loop stopped at page 2, and
the theorem instantiated at page 1 yields the continue conditions that made
it request page 2. -/
theorem C7_witness :
    fetchContinueAt c7Pages 2 "NewsAPI" 1 :=
  (C7_pagination c7Pages 2).2.2.1 1 (by decide) (by decide)
